import Mathlib

/-!
Verification of the cheatsheeter Document Store (src/backend/models.py).

Strings manipulated character-by-character by the code (identifiers, file
names) are embedded as `List Char` (called `PyStr`); the embedding covers the
ASCII fragment of Python's text handling, which is exact for every character
the identifier pattern, the path separators and the file-name machinery can
produce.  Document content is embedded as an inductive `Yaml` value covering
the scalar/sequence/mapping shapes that `yaml.safe_load`/`safe_dump` exchange
with the model; mappings record their key order, matching Python dicts and
`yaml.safe_dump(..., sort_keys=False)`.
-/

namespace Cheatsheeter

/-- Decidable equality for `Except`, so concrete runs of the fallible
operations can be checked by `decide`. -/
instance instDecEqExcept {e a : Type} [DecidableEq e] [DecidableEq a] :
    DecidableEq (Except e a) := fun x y =>
  match x, y with
  | .ok u, .ok v =>
      if h : u = v then .isTrue (by rw [h])
      else .isFalse (by intro hc; injection hc; contradiction)
  | .error u, .error v =>
      if h : u = v then .isTrue (by rw [h])
      else .isFalse (by intro hc; injection hc; contradiction)
  | .ok _, .error _ => .isFalse (by intro hc; cases hc)
  | .error _, .ok _ => .isFalse (by intro hc; cases hc)

abbrev PyStr := List Char

/-- Python `str.strip()` whitespace set, restricted to ASCII:
space, tab, newline, carriage return, vertical tab, form feed. -/
def pyIsSpace (c : Char) : Bool :=
  c == ' ' || c == '\t' || c == '\n' || c == '\r' || c == Char.ofNat 11 || c == Char.ofNat 12

/-- Python `str.strip()` (both ends). -/
def pyStrip (s : PyStr) : PyStr :=
  ((s.dropWhile pyIsSpace).reverse.dropWhile pyIsSpace).reverse

/-- Python `str.replace(old, new)` for a single-character `old`. -/
def replaceChar (old : Char) (new : PyStr) : PyStr → PyStr
  | [] => []
  | c :: s => (if c = old then new else [c]) ++ replaceChar old new s

/-- Characters kept by werkzeug's `_filename_ascii_strip_re` (`[A-Za-z0-9_.-]`). -/
def isSecureKeep (c : Char) : Bool :=
  (decide (65 ≤ c.toNat) && decide (c.toNat ≤ 90)) ||
  (decide (97 ≤ c.toNat) && decide (c.toNat ≤ 122)) ||
  (decide (48 ≤ c.toNat) && decide (c.toNat ≤ 57)) ||
  c == '_' || c == '.' || c == '-'

/-- Characters matched by `CheatSheet.NAME_PATTERN`'s class `[a-zA-Z0-9_-]`. -/
def isNameChar (c : Char) : Bool :=
  (decide (65 ≤ c.toNat) && decide (c.toNat ≤ 90)) ||
  (decide (97 ≤ c.toNat) && decide (c.toNat ≤ 122)) ||
  (decide (48 ≤ c.toNat) && decide (c.toNat ≤ 57)) ||
  c == '_' || c == '-'

/-- `re.match(NAME_PATTERN, s)` for `^[a-zA-Z0-9_-]{1,50}$`: every character in
the class and length between 1 and 50. -/
def matchesNamePattern (s : PyStr) : Bool :=
  s.all isNameChar && decide (1 ≤ s.length) && decide (s.length ≤ 50)

/-- The `str.split()` worker: splits on whitespace runs, discarding empty
pieces, accumulating the current word reversed in `acc`. -/
def splitWsAux : PyStr → PyStr → List PyStr
  | [], acc => if acc = [] then [] else [acc.reverse]
  | c :: s, acc =>
    if pyIsSpace c then
      (if acc = [] then [] else [acc.reverse]) ++ splitWsAux s []
    else
      splitWsAux s (c :: acc)

/-- Python `str.split()` with no argument. -/
def splitWs (s : PyStr) : List PyStr := splitWsAux s []

/-- Python `"_".join(words)`. -/
def joinUnderscore : List PyStr → PyStr
  | [] => []
  | [w] => w
  | w :: ws => w ++ '_' :: joinUnderscore ws

/-- Python `str.strip("._")`: drop leading and trailing dots and underscores. -/
def isDotOrUnderscore (c : Char) : Bool := c == '.' || c == '_'

def stripDotUnderscore (s : PyStr) : PyStr :=
  ((s.dropWhile isDotOrUnderscore).reverse.dropWhile isDotOrUnderscore).reverse

/-- The `filename.encode("ascii", "ignore")` step of `secure_filename`: keep
ASCII characters only.  (The preceding NFKD normalization is the identity on
ASCII text, which is the only text reaching this point from the claims'
statements; characters with a non-ASCII decomposition are simply dropped in
this model.) -/
def asciiOnly (s : PyStr) : PyStr := s.filter fun c => decide (c.toNat < 128)

/-- werkzeug's `secure_filename` on a POSIX system: ASCII-restrict, replace
`os.sep` (`/`) by a space, join the whitespace-split pieces with `_`, erase
every character outside `[A-Za-z0-9_.-]`, and strip leading/trailing `.`/`_`.
(The Windows-only device-file special case does not apply.) -/
def secure_filename (s : PyStr) : PyStr :=
  stripDotUnderscore
    ((joinUnderscore (splitWs (replaceChar '/' [' '] (asciiOnly s)))).filter isSecureKeep)

/-- The single error kind raised by `CheatSheet._sanitize_name` (Python
`ValueError`; the spec's `InvalidIdentifier`). -/
inductive SanitizeErr where
  | valueError
deriving DecidableEq

/-- `CheatSheet._sanitize_name`: reject an empty raw name, strip surrounding
whitespace, remove `/` and `\`, turn spaces into hyphens, run
`secure_filename`, and validate against `NAME_PATTERN`. -/
def sanitize_name (raw : PyStr) : Except SanitizeErr PyStr :=
  if raw = [] then .error .valueError
  else
    let cleaned := replaceChar ' ' ['-']
      (replaceChar '\\' [] (replaceChar '/' [] (pyStrip raw)))
    let secured := secure_filename cleaned
    if matchesNamePattern secured then .ok secured else .error .valueError

/-- Modelled from the spec (3 / claim C3's wording): the claimed pipeline —
strip surrounding whitespace, replace path separators and internal spaces
WITH HYPHENS, then a secure-filename normalization that removes every
character outside the alphanumeric/hyphen/underscore set, then validate
against the pattern. -/
def sanitizeClaimed (raw : PyStr) : Except SanitizeErr PyStr :=
  if raw = [] then .error .valueError
  else
    let cleaned := replaceChar ' ' ['-']
      (replaceChar '\\' ['-'] (replaceChar '/' ['-'] (pyStrip raw)))
    let secured := cleaned.filter isNameChar
    if matchesNamePattern secured then .ok secured else .error .valueError

/-- Modelled from the spec: claim C3's pipeline with only the path-separator
clause repaired (separators removed instead of hyphenated), keeping the
claim's description of the normalization step (remove every character outside
alphanumeric/hyphen/underscore).  Used to show that this smaller repair is
still not what the code does. -/
def sanitizeClaimedSepFixed (raw : PyStr) : Except SanitizeErr PyStr :=
  if raw = [] then .error .valueError
  else
    let cleaned := replaceChar ' ' ['-']
      (replaceChar '\\' [] (replaceChar '/' [] (pyStrip raw)))
    let secured := cleaned.filter isNameChar
    if matchesNamePattern secured then .ok secured else .error .valueError

/-- The amended description of `_sanitize_name`: path separators are removed
(filtered out), remaining spaces become hyphens, and the normalization is the
werkzeug one (keeps `.` as well, joins whitespace runs with `_`, strips
leading/trailing `.`/`_`). -/
def sanitizeAmendedDesc (raw : PyStr) : Except SanitizeErr PyStr :=
  if raw = [] then .error .valueError
  else
    let cleaned :=
      (((pyStrip raw).filter fun c => !(c == '/' || c == '\\')).map
        fun c => if c = ' ' then '-' else c)
    let secured := secure_filename cleaned
    if matchesNamePattern secured then .ok secured else .error .valueError

/-! Helper lemmas about the character-level operations. -/

theorem dropWhile_self_idem (p : Char → Bool) :
    ∀ l : PyStr, List.dropWhile p (List.dropWhile p l) = List.dropWhile p l
  | [] => rfl
  | c :: t => by
    cases hc : p c
    · simp [List.dropWhile_cons, hc]
    · simp [List.dropWhile_cons, hc, dropWhile_self_idem p t]

theorem head_dropWhile_false (p : Char → Bool) :
    ∀ (l : PyStr) (c : Char), (List.dropWhile p l).head? = some c → p c = false := by
  intro l
  induction l with
  | nil => intro c h; simp [List.dropWhile] at h
  | cons d t ih =>
    intro c h
    rw [List.dropWhile_cons] at h
    cases hd : p d
    · rw [hd] at h
      simp only [Bool.false_eq_true, if_false, List.head?_cons, Option.some.injEq] at h
      subst h; exact hd
    · rw [hd] at h
      simp only [if_true] at h
      exact ih c h

theorem dropWhile_eq_self_of_head (p : Char → Bool) (l : PyStr)
    (h : ∀ c, l.head? = some c → p c = false) : List.dropWhile p l = l := by
  cases l with
  | nil => rfl
  | cons c t => rw [List.dropWhile_cons, h c rfl]; simp

theorem dropWhile_eq_self_of_mem (p : Char → Bool) (l : PyStr)
    (h : ∀ c ∈ l, p c = false) : List.dropWhile p l = l := by
  cases l with
  | nil => rfl
  | cons c t => rw [List.dropWhile_cons, h c (List.mem_cons_self c t)]; simp

theorem dropWhile_append_last (p : Char → Bool) (c : Char) (hc : p c = false) :
    ∀ u : PyStr, List.dropWhile p (u ++ [c]) = List.dropWhile p u ++ [c]
  | [] => by simp [List.dropWhile_cons, hc]
  | a :: u => by
    cases ha : p a
    · simp [List.dropWhile_cons, ha]
    · simp [List.dropWhile_cons, ha, dropWhile_append_last p c hc u]

theorem reverse_dropWhile_reverse_head (p : Char → Bool) (c : Char) (t : PyStr)
    (hc : p c = false) :
    ((List.dropWhile p (c :: t).reverse).reverse).head? = some c := by
  rw [List.reverse_cons, dropWhile_append_last p c hc, List.reverse_append]
  simp

theorem stripDotUnderscore_idem (s : PyStr) :
    stripDotUnderscore (stripDotUnderscore s) = stripDotUnderscore s := by
  unfold stripDotUnderscore
  cases hw : List.dropWhile isDotOrUnderscore s with
  | nil => simp
  | cons c t =>
    have hc : isDotOrUnderscore c = false :=
      head_dropWhile_false _ s c (by rw [hw]; rfl)
    have h1 : List.dropWhile isDotOrUnderscore
        ((List.dropWhile isDotOrUnderscore (c :: t).reverse).reverse) =
        (List.dropWhile isDotOrUnderscore (c :: t).reverse).reverse := by
      apply dropWhile_eq_self_of_head
      intro d hd
      rw [reverse_dropWhile_reverse_head _ c t hc] at hd
      injection hd with hd
      subst hd
      exact hc
    rw [h1, List.reverse_reverse, dropWhile_self_idem]

theorem pyStrip_eq_self (l : PyStr) (h : ∀ c ∈ l, pyIsSpace c = false) : pyStrip l = l := by
  unfold pyStrip
  rw [dropWhile_eq_self_of_mem _ _ h,
    dropWhile_eq_self_of_mem _ _ (fun c hc => h c (List.mem_reverse.mp hc)),
    List.reverse_reverse]

/-! Character-class facts linking `NAME_PATTERN` to the other predicates. -/

theorem pyIsSpace_toNat {c : Char} (h : pyIsSpace c = true) : c.toNat ≤ 32 := by
  simp only [pyIsSpace, Bool.or_eq_true, beq_iff_eq] at h
  rcases h with ((((h | h) | h) | h) | h) | h <;> subst h <;> decide

theorem isNameChar_cases {c : Char} (h : isNameChar c = true) :
    (65 ≤ c.toNat ∧ c.toNat ≤ 90) ∨ (97 ≤ c.toNat ∧ c.toNat ≤ 122) ∨
      (48 ≤ c.toNat ∧ c.toNat ≤ 57) ∨ c = '_' ∨ c = '-' := by
  simp only [isNameChar, Bool.or_eq_true, Bool.and_eq_true, decide_eq_true_eq,
    beq_iff_eq] at h
  rcases h with (((h | h) | h) | h) | h
  · exact Or.inl h
  · exact Or.inr (Or.inl h)
  · exact Or.inr (Or.inr (Or.inl h))
  · exact Or.inr (Or.inr (Or.inr (Or.inl h)))
  · exact Or.inr (Or.inr (Or.inr (Or.inr h)))

theorem nameChar_not_space {c : Char} (h : isNameChar c = true) : pyIsSpace c = false := by
  cases hs : pyIsSpace c
  · rfl
  · exfalso
    have h32 := pyIsSpace_toNat hs
    rcases isNameChar_cases h with ⟨h1, h2⟩ | ⟨h1, h2⟩ | ⟨h1, h2⟩ | rfl | rfl <;>
      first
        | omega
        | exact absurd h32 (by decide)

theorem nameChar_ascii {c : Char} (h : isNameChar c = true) :
    decide (c.toNat < 128) = true := by
  rw [decide_eq_true_eq]
  rcases isNameChar_cases h with ⟨h1, h2⟩ | ⟨h1, h2⟩ | ⟨h1, h2⟩ | rfl | rfl <;>
    first
      | omega
      | decide

theorem nameChar_secureKeep {c : Char} (h : isNameChar c = true) : isSecureKeep c = true := by
  simp only [isSecureKeep, Bool.or_eq_true, Bool.and_eq_true, decide_eq_true_eq, beq_iff_eq]
  rcases isNameChar_cases h with h1 | h1 | h1 | rfl | rfl <;> tauto

theorem nameChar_ne_bad {c : Char} (h : isNameChar c = true) :
    c ≠ '/' ∧ c ≠ '\\' ∧ c ≠ ' ' := by
  refine ⟨?_, ?_, ?_⟩ <;> rintro rfl <;> exact absurd h (by decide)

/-! Behaviour of the split/join/replace helpers on separator-free text. -/

theorem splitWsAux_nospace :
    ∀ (s acc : PyStr), (∀ c ∈ s, pyIsSpace c = false) → acc ≠ [] →
      splitWsAux s acc = [acc.reverse ++ s]
  | [], acc, _, hacc => by simp [splitWsAux, hacc]
  | c :: s, acc, h, hacc => by
    have hc := h c (List.mem_cons_self c s)
    have ih := splitWsAux_nospace s (c :: acc)
      (fun d hd => h d (List.mem_cons_of_mem c hd)) (List.cons_ne_nil c acc)
    simp [splitWsAux, hc, ih, List.append_assoc]

theorem splitWs_nospace (c : Char) (t : PyStr) (h : ∀ d ∈ c :: t, pyIsSpace d = false) :
    splitWs (c :: t) = [c :: t] := by
  have hc := h c (List.mem_cons_self c t)
  have ih := splitWsAux_nospace t [c]
    (fun d hd => h d (List.mem_cons_of_mem c hd)) (List.cons_ne_nil c [])
  simp [splitWs, splitWsAux, hc, ih]

theorem replaceChar_eq_self (old : Char) (new : PyStr) :
    ∀ l : PyStr, (∀ c ∈ l, c ≠ old) → replaceChar old new l = l
  | [], _ => rfl
  | c :: t, h => by
    simp [replaceChar, h c (List.mem_cons_self c t),
      replaceChar_eq_self old new t (fun d hd => h d (List.mem_cons_of_mem c hd))]

theorem replaceChar_nil_eq_filter (old : Char) :
    ∀ l : PyStr, replaceChar old [] l = l.filter fun c => !(c == old)
  | [] => rfl
  | c :: t => by
    by_cases hc : c = old <;>
      simp [replaceChar, hc, replaceChar_nil_eq_filter old t]

theorem replaceChar_singleton_eq_map (old d : Char) :
    ∀ l : PyStr, replaceChar old [d] l = l.map fun c => if c = old then d else c
  | [] => rfl
  | c :: t => by
    by_cases hc : c = old <;>
      simp [replaceChar, hc, replaceChar_singleton_eq_map old d t]

theorem secure_filename_eq_self (l : PyStr) (hname : ∀ c ∈ l, isNameChar c = true)
    (hsdu : stripDotUnderscore l = l) : secure_filename l = l := by
  unfold secure_filename
  rw [show asciiOnly l = l from List.filter_eq_self.mpr fun c hc => nameChar_ascii (hname c hc)]
  rw [replaceChar_eq_self '/' [' '] l fun c hc => (nameChar_ne_bad (hname c hc)).1]
  cases l with
  | nil => rfl
  | cons c t =>
    rw [splitWs_nospace c t (fun d hd => nameChar_not_space (hname d hd))]
    show stripDotUnderscore ((joinUnderscore [c :: t]).filter isSecureKeep) = c :: t
    rw [show joinUnderscore [c :: t] = c :: t from rfl]
    rw [List.filter_eq_self.mpr fun d hd => nameChar_secureKeep (hname d hd)]
    exact hsdu

/-! Destructing a successful `_sanitize_name` run. -/

theorem sanitize_name_ok_elim (raw r : PyStr) (h : sanitize_name raw = .ok r) :
    matchesNamePattern r = true ∧
      r = secure_filename (replaceChar ' ' ['-']
        (replaceChar '\\' [] (replaceChar '/' [] (pyStrip raw)))) := by
  by_cases hraw : raw = []
  · rw [hraw] at h
    exact Except.noConfusion h
  · simp only [sanitize_name, if_neg hraw] at h
    by_cases hm : matchesNamePattern (secure_filename (replaceChar ' ' ['-']
        (replaceChar '\\' [] (replaceChar '/' [] (pyStrip raw))))) = true
    · rw [if_pos hm] at h
      injection h with h2
      exact ⟨h2 ▸ hm, h2.symm⟩
    · rw [if_neg hm] at h
      exact Except.noConfusion h

theorem sanitize_name_fixed (raw r : PyStr) (h : sanitize_name raw = .ok r) :
    sanitize_name r = .ok r := by
  obtain ⟨hpat, hr⟩ := sanitize_name_ok_elim raw r h
  have hname : ∀ c ∈ r, isNameChar c = true := by
    have hall : r.all isNameChar = true := by
      simp only [matchesNamePattern, Bool.and_eq_true] at hpat
      exact hpat.1.1
    exact List.all_eq_true.mp hall
  have hne : r ≠ [] := by
    intro hempty
    rw [hempty] at hpat
    exact absurd hpat (by decide)
  have hsdu : stripDotUnderscore r = r := by
    rw [hr]
    unfold secure_filename
    exact stripDotUnderscore_idem _
  simp only [sanitize_name, if_neg hne]
  rw [pyStrip_eq_self r fun c hc => nameChar_not_space (hname c hc)]
  rw [replaceChar_eq_self '/' [] r fun c hc => (nameChar_ne_bad (hname c hc)).1]
  rw [replaceChar_eq_self '\\' [] r fun c hc => (nameChar_ne_bad (hname c hc)).2.1]
  rw [replaceChar_eq_self ' ' ['-'] r fun c hc => (nameChar_ne_bad (hname c hc)).2.2]
  rw [secure_filename_eq_self r hname hsdu, hpat]
  simp

theorem sepRemoval_eq (s : PyStr) :
    replaceChar ' ' ['-'] (replaceChar '\\' [] (replaceChar '/' [] s)) =
      (s.filter fun c => !(c == '/' || c == '\\')).map fun c => if c = ' ' then '-' else c := by
  rw [replaceChar_nil_eq_filter '/', replaceChar_nil_eq_filter '\\',
    replaceChar_singleton_eq_map ' ' '-', List.filter_filter]
  have hf : List.filter (fun a => (!(a == '\\')) && !(a == '/')) s =
      List.filter (fun c => !(c == '/' || c == '\\')) s := by
    apply List.filter_congr
    intro a _
    cases ha : a == '/' <;> cases hb : a == '\\' <;> simp [ha, hb]
  rw [hf]

/-! The claim theorems about `_sanitize_name`. -/

/-- Claim C3 (counterexample): the spec's description of sanitization replaces
path separators with hyphens, but the code removes them: on `"a/b"` the code
yields `"ab"` while the claimed pipeline yields `"a-b"`.  Moreover the claim's
description of the normalization step (remove every character outside the
alphanumeric/hyphen/underscore set) is also not what the code does even after
repairing the separator clause: on `"a.b"` the code rejects the name (werkzeug
keeps the interior dot and the pattern then fails) while the claimed
normalization would strip the dot and accept `"ab"`. -/
theorem claim_c3_counterexample :
    ¬ (sanitize_name ("a/b".toList) = sanitizeClaimed ("a/b".toList)) ∧
      ¬ (sanitize_name ("a.b".toList) = sanitizeClaimedSepFixed ("a.b".toList)) := by
  constructor <;> decide

/-- Claim C3 (amended): for every raw input string, `_sanitize_name` strips
surrounding whitespace, REMOVES path separators (`/` and `\`), replaces the
remaining spaces with hyphens, applies the werkzeug secure-filename
normalization (which keeps alphanumerics and `-`, `_`, `.`, joins whitespace
runs with underscores and strips leading/trailing dots and underscores), then
validates against the identifier pattern, failing with `InvalidIdentifier`
(Python `ValueError`) if the raw input is empty or the result fails the
pattern. -/
theorem claim_c3_sanitize_pipeline (raw : PyStr) :
    sanitize_name raw = sanitizeAmendedDesc raw := by
  simp only [sanitize_name, sanitizeAmendedDesc]
  rw [sepRemoval_eq (pyStrip raw)]

/-- Claim C4: on every raw input on which `_sanitize_name` succeeds, the
result matches `^[a-zA-Z0-9_-]{1,50}$`, and in particular contains no path
separator and no space. -/
theorem claim_c4_sanitized_name_safe (raw r : PyStr) (h : sanitize_name raw = .ok r) :
    matchesNamePattern r = true ∧ ∀ c ∈ r, c ≠ '/' ∧ c ≠ '\\' ∧ c ≠ ' ' := by
  obtain ⟨hpat, _⟩ := sanitize_name_ok_elim raw r h
  have hname : ∀ c ∈ r, isNameChar c = true := by
    have hall : r.all isNameChar = true := by
      simp only [matchesNamePattern, Bool.and_eq_true] at hpat
      exact hpat.1.1
    exact List.all_eq_true.mp hall
  exact ⟨hpat, fun c hc => nameChar_ne_bad (hname c hc)⟩

/-- Witness for C4: `_sanitize_name` on `"a b/c"` succeeds with `"a-bc"`, which
matches the pattern and contains no separator or space. -/
theorem claim_c4_witness :
    sanitize_name ("a b/c".toList) = .ok ("a-bc".toList) ∧
      (matchesNamePattern ("a-bc".toList) = true ∧
        ∀ c ∈ ("a-bc".toList), c ≠ '/' ∧ c ≠ '\\' ∧ c ≠ ' ') :=
  ⟨by decide, claim_c4_sanitized_name_safe ("a b/c".toList) ("a-bc".toList) (by decide)⟩

/-- Claim C9: on every raw identifier already consisting only of letters,
digits, hyphens and underscores with length 1..50, `_sanitize_name` is
idempotent (in the Kleisli sense appropriate for a fallible operation:
re-sanitizing the output reproduces the output, and a failure propagates).
The hypothesis is in fact not needed: every successful output of
`_sanitize_name` is a fixed point. -/
theorem claim_c9_sanitize_idempotent (x : PyStr) (_hx : matchesNamePattern x = true) :
    (sanitize_name x).bind sanitize_name = sanitize_name x := by
  cases hs : sanitize_name x with
  | error e => rfl
  | ok r =>
    show sanitize_name r = Except.ok r
    exact sanitize_name_fixed x r hs

/-- Witness for C9 at the concrete in-pattern input `"my-notes"`. -/
theorem claim_c9_witness :
    matchesNamePattern ("my-notes".toList) = true ∧
      (sanitize_name ("my-notes".toList)).bind sanitize_name =
        sanitize_name ("my-notes".toList) :=
  ⟨by decide, claim_c9_sanitize_idempotent ("my-notes".toList) (by decide)⟩

/-!
Document content.  `yaml.safe_load`/`safe_dump` exchange null/bool/int/string
scalars, sequences and (insertion-ordered) mappings; documents passed to the
schema are Python dicts with string keys, so mapping keys are embedded as
`String`.  (Floating-point scalars never occur in a schema-valid document and
are outside this embedding.)
-/

inductive Yaml where
  | null
  | bool (b : Bool)
  | int (n : Int)
  | str (s : String)
  | seq (xs : List Yaml)
  | map (kvs : List (String × Yaml))

/-- Python `dict.get(k, default)` on an embedded mapping.  (The model's call
sites only ever apply it to values that passed schema validation, hence to
mappings, mirroring the code where `.get` is only reached on dicts.) -/
def yamlGet (v : Yaml) (k : String) (dflt : Yaml) : Yaml :=
  match v with
  | .map kvs =>
    match kvs.lookup k with
    | some x => x
    | none => dflt
  | _ => dflt

/-- One marshmallow validation failure: the path of field names / stringified
list indices leading to the offending value, and the message. -/
structure VError where
  path : List String
  msg : String
deriving DecidableEq

/-- Python `int(s)` on a string, ASCII fragment: optional surrounding
whitespace, an optional sign, then at least one digit. -/
def parsePyInt (s : String) : Option Int :=
  let core := pyStrip s.toList
  let go : PyStr → Option Nat := fun ds =>
    if ds = [] then none
    else if ds.all Char.isDigit then
      some (ds.foldl (fun acc c => 10 * acc + (c.toNat - 48)) 0)
    else none
  match core with
  | '-' :: ds => (go ds).map fun n => -(n : Int)
  | '+' :: ds => (go ds).map fun n => (n : Int)
  | ds => (go ds).map fun n => (n : Int)

/-- marshmallow `validate.Length(min=lo, max=hi)` on a deserialized string
(both bounds set, so a violation reports `message_all`). -/
def lengthErrs (lo hi : Nat) (s : String) : List String :=
  if lo ≤ s.length ∧ s.length ≤ hi then []
  else ["Length must be between " ++ toString lo ++ " and " ++ toString hi ++ "."]

/-- marshmallow `validate.Range(min=lo, max=hi)` on a deserialized integer. -/
def rangeErrs (lo hi : Int) (n : Int) : List String :=
  if lo ≤ n ∧ n ≤ hi then []
  else ["Must be greater than or equal to " ++ toString lo ++
    " and less than or equal to " ++ toString hi ++ "."]

/-- A required `fields.Str(validate=Length(min=lo, max=hi))`. -/
def reqStrErrs (lo hi : Nat) (v : Option Yaml) : List String :=
  match v with
  | none => ["Missing data for required field."]
  | some .null => ["Field may not be null."]
  | some (.str s) => lengthErrs lo hi s
  | some _ => ["Not a valid string."]

/-- The optional `component` field: `fields.Str(allow_none=True,
validate=Length(max=hi))` (only the max bound is set, so a violation reports
`message_max`). -/
def optStrErrs (hi : Nat) (v : Option Yaml) : List String :=
  match v with
  | none => []
  | some .null => []
  | some (.str s) =>
    if s.length ≤ hi then [] else ["Longer than maximum length " ++ toString hi ++ "."]
  | some _ => ["Not a valid string."]

/-- A required `fields.Int(validate=Range(min=lo, max=hi))` with marshmallow's
default `strict=False`: an int passes through, a bool is rejected, a string is
accepted when `int(s)` parses. -/
def reqIntErrs (lo hi : Int) (v : Option Yaml) : List String :=
  match v with
  | none => ["Missing data for required field."]
  | some .null => ["Field may not be null."]
  | some (.int n) => rangeErrs lo hi n
  | some (.bool _) => ["Not a valid integer."]
  | some (.str s) =>
    match parsePyInt s with
    | some n => rangeErrs lo hi n
    | none => ["Not a valid integer."]
  | some _ => ["Not a valid integer."]

/-- Tag a list of messages with a single-field path. -/
def atField (fname : String) (msgs : List String) : List VError :=
  msgs.map fun m => ⟨[fname], m⟩

/-- Prepend a path segment to every error of a nested run. -/
def underPath (seg : String) (errs : List VError) : List VError :=
  errs.map fun e => ⟨seg :: e.path, e.msg⟩

/-- Validate each element of a sequence with the nested schema, tagging errors
with the element's index (marshmallow keys nested-list errors by index). -/
def indexedErrs (f : Yaml → List VError) : Nat → List Yaml → List VError
  | _, [] => []
  | i, x :: xs => underPath (toString i) (f x) ++ indexedErrs f (i + 1) xs

/-- A required `fields.List(fields.Nested(...))`. -/
def reqListErrs (fname : String) (f : Yaml → List VError) (v : Option Yaml) : List VError :=
  match v with
  | none => atField fname ["Missing data for required field."]
  | some .null => atField fname ["Field may not be null."]
  | some (.seq xs) => underPath fname (indexedErrs f 0 xs)
  | some _ => atField fname ["Not a valid list."]

/-- `CategoryItemSchema.load`: required `command` (1..1000), required
`description` (1..500), optional `component` (max 100); `unknown = EXCLUDE`
means any other key is ignored; a non-mapping input is a schema-level error. -/
def itemErrs (v : Yaml) : List VError :=
  match v with
  | .map kvs =>
    atField "command" (reqStrErrs 1 1000 (kvs.lookup "command")) ++
    atField "description" (reqStrErrs 1 500 (kvs.lookup "description")) ++
    atField "component" (optStrErrs 100 (kvs.lookup "component"))
  | _ => [⟨["_schema"], "Invalid input type."⟩]

/-- `CategorySchema.load`: required `name` (1..100), required `column`
(1..6), optional `component` (max 100), required `items` list of items. -/
def categoryErrs (v : Yaml) : List VError :=
  match v with
  | .map kvs =>
    atField "name" (reqStrErrs 1 100 (kvs.lookup "name")) ++
    atField "column" (reqIntErrs 1 6 (kvs.lookup "column")) ++
    atField "component" (optStrErrs 100 (kvs.lookup "component")) ++
    reqListErrs "items" itemErrs (kvs.lookup "items")
  | _ => [⟨["_schema"], "Invalid input type."⟩]

/-- `CheatSheetSchema.load`: required `title` (1..200), required `columns`
(1..6), required `categories` list of categories; a non-mapping input is the
schema-level "Invalid input type." error. -/
def cheatSheetErrs (v : Yaml) : List VError :=
  match v with
  | .map kvs =>
    atField "title" (reqStrErrs 1 200 (kvs.lookup "title")) ++
    atField "columns" (reqIntErrs 1 6 (kvs.lookup "columns")) ++
    reqListErrs "categories" categoryErrs (kvs.lookup "categories")
  | _ => [⟨["_schema"], "Invalid input type."⟩]

/-- `CheatSheet.validate_data`: runs `CheatSheetSchema().load(self.data)` and
raises `ValidationError` exactly when the collected error list is nonempty. -/
def validate_data (d : Yaml) : List VError := cheatSheetErrs d

/-!
The storage directory.  A state is the directory's existence flag plus the
association of file names to contents; a file is either well-formed (already
parsed YAML, since `safe_dump`/`safe_load` with `sort_keys=False` exchange
the structured value faithfully, preserving sequence order and mapping
insertion order) or malformed text that `safe_load` rejects.
-/

inductive FileContent where
  | malformed
  | yamlData (v : Yaml)

abbrev FileName := PyStr

structure FS where
  dirExists : Bool
  files : List (FileName × FileContent)

/-- First-match lookup; directory listings have unique names, so this is
Python's file-by-name access. -/
def lookupFile : List (FileName × FileContent) → FileName → Option FileContent
  | [], _ => none
  | (m, c) :: t, n => if m = n then some c else lookupFile t n

/-- `os.path.exists` on `<folder>/<n>` followed by a read. -/
def FS.lookup (fs : FS) (n : FileName) : Option FileContent :=
  if fs.dirExists then lookupFile fs.files n else none

/-- Create or overwrite a file. -/
def setFile : List (FileName × FileContent) → FileName → FileContent →
    List (FileName × FileContent)
  | [], n, c => [(n, c)]
  | (m, d) :: t, n, c => if m = n then (n, c) :: t else (m, d) :: setFile t n c

/-- `os.unlink` (no-op when absent, though the code guards with
`os.path.exists` first). -/
def removeFile : List (FileName × FileContent) → FileName → List (FileName × FileContent)
  | [], _ => []
  | (m, d) :: t, n => if m = n then t else (m, d) :: removeFile t n

def extYaml : PyStr := ".yaml".toList

/-- `self.file_path`'s basename: `f"{self.name}.yaml"`. -/
def yamlFileName (name : FileName) : FileName := name ++ extYaml

/-- `tempfile.mkstemp(dir=folder, prefix=f".{name}_", suffix=".yaml.tmp")`:
the temporary file's basename, with `rand` the random middle part. -/
def tempFileName (name : FileName) (rand : PyStr) : FileName :=
  '.' :: (name ++ '_' :: (rand ++ ".yaml.tmp".toList))

/-- The `CheatSheet` instance state: sanitized name, raw data dict, and the
`columns`/`categories` values derived from it by `__init__` (and re-derived
by `load`). -/
structure CheatSheet where
  name : FileName
  data : Yaml
  columns : Yaml
  categories : Yaml

/-- `CheatSheet.__init__`: sanitize the name (raising `ValueError` on an
invalid one), default missing data to `{}`, and derive `columns` (default 1)
and `categories` (default `[]`). -/
def initCheatSheet (rawName : FileName) (data : Option Yaml) :
    Except SanitizeErr CheatSheet :=
  match sanitize_name rawName with
  | .error e => .error e
  | .ok n =>
    let d := data.getD (.map [])
    .ok ⟨n, d, yamlGet d "columns" (.int 1), yamlGet d "categories" (.seq [])⟩

inductive LoadErr where
  | fileNotFoundError
  | yamlError
  | validationError (errs : List VError)
deriving DecidableEq

/-- `CheatSheet.load`: `FileNotFoundError` when the backing file is absent,
`yaml.YAMLError` when parsing fails, `self.data = {}` when the parse result
is `None`, then schema validation, then re-derivation of `columns` and
`categories`. -/
def load (name : FileName) (fs : FS) : Except LoadErr CheatSheet :=
  match fs.lookup (yamlFileName name) with
  | none => .error .fileNotFoundError
  | some .malformed => .error .yamlError
  | some (.yamlData v) =>
    let d := match v with
      | .null => Yaml.map []
      | _ => v
    if validate_data d = [] then
      .ok ⟨name, d, yamlGet d "columns" (.int 1), yamlGet d "categories" (.seq [])⟩
    else
      .error (.validationError (validate_data d))

inductive SaveErr where
  | validationError (errs : List VError)
  | ioError
deriving DecidableEq

/-- Which step of the write fails, if any: the model's stand-in for the
exceptions the `try` block can see. -/
inductive WriteOutcome where
  | ok
  | failWrite
  | failRename
deriving DecidableEq

/-- `CheatSheet.save`: validate first (raising `ValidationError` with the
collected errors before touching the disk), then `os.makedirs`, then
`mkstemp` (an empty temp file appears), then the dump into the temp file and
the atomic `shutil.move` onto the final path; on a write or rename failure
the temp file is unlinked and `IOError` is raised.  Returns the outcome
together with the resulting directory state. -/
def save (cs : CheatSheet) (fs : FS) (rand : PyStr) (oc : WriteOutcome) :
    Except SaveErr Unit × FS :=
  if validate_data cs.data = [] then
    let tmp := tempFileName cs.name rand
    let afterTemp := setFile fs.files tmp (.yamlData .null)
    match oc with
    | .failWrite => (.error .ioError, ⟨true, removeFile afterTemp tmp⟩)
    | .failRename =>
      let written := setFile afterTemp tmp (.yamlData cs.data)
      (.error .ioError, ⟨true, removeFile written tmp⟩)
    | .ok =>
      let written := setFile afterTemp tmp (.yamlData cs.data)
      (.ok (),
        ⟨true, setFile (removeFile written tmp) (yamlFileName cs.name) (.yamlData cs.data)⟩)
  else
    (.error (.validationError (validate_data cs.data)), fs)

/-- `file_name.startswith(".")`. -/
def startsWithDot : FileName → Bool
  | [] => false
  | c :: _ => c == '.'

/-- `file_name.endswith(".yaml")`. -/
def endsWithYaml (f : FileName) : Bool := extYaml.isSuffixOf f

/-- The index of the last `.`, i.e. Python `p.rfind(".")` when nonnegative. -/
def rfindDot : FileName → Option Nat
  | [] => none
  | c :: t =>
    match rfindDot t with
    | some i => some (i + 1)
    | none => if c == '.' then some 0 else none

/-- `os.path.splitext(f)[0]` for a bare file name (no directory separators):
split at the last dot unless every character before it is itself a dot
(the hidden-file rule). -/
def splitextStem (f : FileName) : FileName :=
  match rfindDot f with
  | none => f
  | some i => if (f.take i).all (fun c => c == '.') then f else f.take i

/-- The filter in `CheatSheet.list_all`'s loop. -/
def keepsFile (f : FileName) : Bool := endsWithYaml f && !(startsWithDot f)

/-- `CheatSheet.list_all`: empty when the folder does not exist; otherwise
the kept names with the extension stripped, sorted (Python `sorted` on
strings is lexicographic by code point, as is `≤` on `List Char`). -/
def list_all (fs : FS) : List FileName :=
  if fs.dirExists then
    List.insertionSort (· ≤ ·) (((fs.files.map Prod.fst).filter keepsFile).map splitextStem)
  else
    []

/-! Helper lemmas about the directory operations. -/

theorem lookupFile_setFile_self :
    ∀ (l : List (FileName × FileContent)) (n : FileName) (c : FileContent),
      lookupFile (setFile l n c) n = some c
  | [], n, c => by simp [setFile, lookupFile]
  | (m, d) :: t, n, c => by
    by_cases h : m = n
    · simp [setFile, lookupFile, h]
    · simp [setFile, lookupFile, h, lookupFile_setFile_self t n c]

theorem removeFile_setFile_fresh :
    ∀ (l : List (FileName × FileContent)) (n : FileName) (c : FileContent),
      (∀ p ∈ l, p.1 ≠ n) → removeFile (setFile l n c) n = l
  | [], n, c, _ => by simp [setFile, removeFile]
  | (m, d) :: t, n, c, h => by
    have hm : m ≠ n := h (m, d) (List.mem_cons_self _ _)
    simp [setFile, removeFile, hm,
      removeFile_setFile_fresh t n c fun p hp => h p (List.mem_cons_of_mem _ hp)]

theorem setFile_setFile :
    ∀ (l : List (FileName × FileContent)) (n : FileName) (c c' : FileContent),
      setFile (setFile l n c) n c' = setFile l n c'
  | [], n, c, c' => by simp [setFile]
  | (m, d) :: t, n, c, c' => by
    by_cases h : m = n
    · simp [setFile, h]
    · simp [setFile, h, setFile_setFile t n c c']

theorem lookupFile_eq_none :
    ∀ (l : List (FileName × FileContent)) (n : FileName),
      (∀ p ∈ l, p.1 ≠ n) → lookupFile l n = none
  | [], _, _ => rfl
  | (m, d) :: t, n, h => by
    simp [lookupFile, h (m, d) (List.mem_cons_self _ _),
      lookupFile_eq_none t n fun p hp => h p (List.mem_cons_of_mem _ hp)]

/-- A document accepted by the schema is a mapping (every other shape yields
the schema-level "Invalid input type." error). -/
theorem valid_data_is_map {v : Yaml} (h : validate_data v = []) : ∃ kvs, v = .map kvs := by
  cases v with
  | map kvs => exact ⟨kvs, rfl⟩
  | null => simp [validate_data, cheatSheetErrs] at h
  | bool b => simp [validate_data, cheatSheetErrs] at h
  | int n => simp [validate_data, cheatSheetErrs] at h
  | str s => simp [validate_data, cheatSheetErrs] at h
  | seq xs => simp [validate_data, cheatSheetErrs] at h

/-- `save` on valid data with a failing temp-file write. -/
theorem save_failWrite_eq (cs : CheatSheet) (fs : FS) (rand : PyStr)
    (hval : validate_data cs.data = []) :
    save cs fs rand .failWrite =
      (.error .ioError,
        ⟨true, removeFile
          (setFile fs.files (tempFileName cs.name rand) (.yamlData .null))
          (tempFileName cs.name rand)⟩) := by
  simp [save, hval]

/-- `save` on valid data with a failing rename. -/
theorem save_failRename_eq (cs : CheatSheet) (fs : FS) (rand : PyStr)
    (hval : validate_data cs.data = []) :
    save cs fs rand .failRename =
      (.error .ioError,
        ⟨true, removeFile
          (setFile (setFile fs.files (tempFileName cs.name rand) (.yamlData .null))
            (tempFileName cs.name rand) (.yamlData cs.data))
          (tempFileName cs.name rand)⟩) := by
  simp [save, hval]

/-- `save` on valid data with a successful write and rename. -/
theorem save_ok_eq (cs : CheatSheet) (fs : FS) (rand : PyStr)
    (hval : validate_data cs.data = []) :
    save cs fs rand .ok =
      (.ok (),
        ⟨true, setFile
          (removeFile
            (setFile (setFile fs.files (tempFileName cs.name rand) (.yamlData .null))
              (tempFileName cs.name rand) (.yamlData cs.data))
            (tempFileName cs.name rand))
          (yamlFileName cs.name) (.yamlData cs.data)⟩) := by
  simp [save, hval]

/-- Claim C5: when the document data violates the schema, `save` fails with
`ValidationFailed` (carrying the collected errors) before touching disk: the
returned directory state is exactly the input state — no directory creation,
no temporary file, no write. -/
theorem claim_c5_invalid_save_untouched (cs : CheatSheet) (fs : FS) (rand : PyStr)
    (oc : WriteOutcome) (h : validate_data cs.data ≠ []) :
    save cs fs rand oc = (.error (.validationError (validate_data cs.data)), fs) := by
  simp only [save, if_neg h]

/-- Witness for C5: saving an empty mapping (missing all required fields)
fails with the validation errors and leaves a nonexistent directory state
untouched. -/
theorem claim_c5_witness :
    validate_data (Yaml.map []) ≠ [] ∧
      save ⟨"x".toList, .map [], .int 1, .seq []⟩ ⟨false, []⟩ [] .ok =
        (.error (.validationError (validate_data (Yaml.map []))), ⟨false, []⟩) :=
  ⟨by decide,
    claim_c5_invalid_save_untouched ⟨"x".toList, .map [], .int 1, .seq []⟩
      ⟨false, []⟩ [] .ok (by decide)⟩

/-- Claim C2: when the write or the rename step of a `save` of valid data
fails, `save` fails with `IOFailure`, the partial temporary file is deleted,
and the file at the final path is untouched (the resulting directory contents
are exactly the original ones). -/
theorem claim_c2_save_failure_cleanup (cs : CheatSheet) (fs : FS) (rand : PyStr)
    (oc : WriteOutcome) (hval : validate_data cs.data = [])
    (hoc : oc = .failWrite ∨ oc = .failRename)
    (hfresh : ∀ p ∈ fs.files, p.1 ≠ tempFileName cs.name rand) :
    (save cs fs rand oc).1 = .error .ioError ∧
      (save cs fs rand oc).2.files = fs.files ∧
      lookupFile (save cs fs rand oc).2.files (tempFileName cs.name rand) = none ∧
      lookupFile (save cs fs rand oc).2.files (yamlFileName cs.name) =
        lookupFile fs.files (yamlFileName cs.name) := by
  have hnone := lookupFile_eq_none fs.files (tempFileName cs.name rand) hfresh
  rcases hoc with rfl | rfl
  · rw [save_failWrite_eq cs fs rand hval]
    rw [removeFile_setFile_fresh fs.files _ _ hfresh]
    exact ⟨rfl, rfl, hnone, rfl⟩
  · rw [save_failRename_eq cs fs rand hval]
    rw [setFile_setFile fs.files _ _ _]
    rw [removeFile_setFile_fresh fs.files _ _ hfresh]
    exact ⟨rfl, rfl, hnone, rfl⟩

/-- Witness for C2 at a concrete valid document, populated directory and
failing rename. -/
theorem claim_c2_witness :
    (save ⟨"doc".toList, .map [("title", .str "T"), ("columns", .int 2),
        ("categories", .seq [])], .int 2, .seq []⟩
      ⟨true, [("other.yaml".toList, .malformed)]⟩ ("ab12".toList) .failRename).1 =
        .error .ioError ∧
      (save ⟨"doc".toList, .map [("title", .str "T"), ("columns", .int 2),
          ("categories", .seq [])], .int 2, .seq []⟩
        ⟨true, [("other.yaml".toList, .malformed)]⟩ ("ab12".toList) .failRename).2.files =
        [("other.yaml".toList, .malformed)] ∧
      lookupFile (save ⟨"doc".toList, .map [("title", .str "T"), ("columns", .int 2),
          ("categories", .seq [])], .int 2, .seq []⟩
        ⟨true, [("other.yaml".toList, .malformed)]⟩ ("ab12".toList) .failRename).2.files
        (tempFileName ("doc".toList) ("ab12".toList)) = none ∧
      lookupFile (save ⟨"doc".toList, .map [("title", .str "T"), ("columns", .int 2),
          ("categories", .seq [])], .int 2, .seq []⟩
        ⟨true, [("other.yaml".toList, .malformed)]⟩ ("ab12".toList) .failRename).2.files
        (yamlFileName ("doc".toList)) =
        lookupFile [("other.yaml".toList, .malformed)] (yamlFileName ("doc".toList)) :=
  claim_c2_save_failure_cleanup
    ⟨"doc".toList, .map [("title", .str "T"), ("columns", .int 2),
      ("categories", .seq [])], .int 2, .seq []⟩
    ⟨true, [("other.yaml".toList, .malformed)]⟩ ("ab12".toList) .failRename
    (by decide) (Or.inr rfl) (by decide)

/-- Claim C1: for every document whose data satisfies the schema invariants
(and whose `columns`/`categories` are the `__init__`/`load` derivations from
that data, as holds for every constructed instance), saving and then loading
the same identifier succeeds and returns the document field-for-field equal
to the original.  Equality of the embedded `data` value is structural, so the
order of the `categories` sequence and of the `items` inside each category is
preserved exactly (the dump uses `sort_keys=False` and sequences keep their
order). -/
theorem claim_c1_save_load_roundtrip (cs : CheatSheet) (fs : FS) (rand : PyStr)
    (hval : validate_data cs.data = [])
    (hcols : cs.columns = yamlGet cs.data "columns" (.int 1))
    (hcats : cs.categories = yamlGet cs.data "categories" (.seq [])) :
    (save cs fs rand .ok).1 = .ok () ∧
      load cs.name (save cs fs rand .ok).2 = .ok cs := by
  obtain ⟨nm, dta, cols, cats⟩ := cs
  simp only at hval hcols hcats
  obtain ⟨kvs, hk⟩ := valid_data_is_map hval
  subst hk
  subst hcols
  subst hcats
  rw [save_ok_eq _ fs rand hval]
  refine ⟨rfl, ?_⟩
  unfold load
  rw [show FS.lookup
      ⟨true, setFile
        (removeFile
          (setFile (setFile fs.files (tempFileName nm rand) (.yamlData .null))
            (tempFileName nm rand) (.yamlData (.map kvs)))
          (tempFileName nm rand))
        (yamlFileName nm) (.yamlData (.map kvs))⟩ (yamlFileName nm) =
      some (.yamlData (.map kvs)) from lookupFile_setFile_self _ _ _]
  show (if validate_data (Yaml.map kvs) = [] then
      Except.ok (⟨nm, Yaml.map kvs, yamlGet (Yaml.map kvs) "columns" (Yaml.int 1),
        yamlGet (Yaml.map kvs) "categories" (Yaml.seq [])⟩ : CheatSheet)
    else Except.error (LoadErr.validationError (validate_data (Yaml.map kvs)))) = _
  rw [if_pos hval]

/-- Witness for C1: a two-category document with items round-trips through a
save into an initially nonexistent directory. -/
theorem claim_c1_witness :
    (save ⟨"w".toList,
        .map [("title", .str "W"), ("columns", .int 2),
          ("categories", .seq [
            .map [("name", .str "B"), ("column", .int 1),
              ("items", .seq [.map [("command", .str "c1"), ("description", .str "d1")]])],
            .map [("name", .str "A"), ("column", .int 2), ("items", .seq [])]])],
        .int 2,
        .seq [
          .map [("name", .str "B"), ("column", .int 1),
            ("items", .seq [.map [("command", .str "c1"), ("description", .str "d1")]])],
          .map [("name", .str "A"), ("column", .int 2), ("items", .seq [])]]⟩
      ⟨false, []⟩ ("t0".toList) .ok).1 = .ok () ∧
      load ("w".toList)
        (save ⟨"w".toList,
          .map [("title", .str "W"), ("columns", .int 2),
            ("categories", .seq [
              .map [("name", .str "B"), ("column", .int 1),
                ("items", .seq [.map [("command", .str "c1"), ("description", .str "d1")]])],
              .map [("name", .str "A"), ("column", .int 2), ("items", .seq [])]])],
          .int 2,
          .seq [
            .map [("name", .str "B"), ("column", .int 1),
              ("items", .seq [.map [("command", .str "c1"), ("description", .str "d1")]])],
            .map [("name", .str "A"), ("column", .int 2), ("items", .seq [])]]⟩
        ⟨false, []⟩ ("t0".toList) .ok).2 =
        .ok ⟨"w".toList,
          .map [("title", .str "W"), ("columns", .int 2),
            ("categories", .seq [
              .map [("name", .str "B"), ("column", .int 1),
                ("items", .seq [.map [("command", .str "c1"), ("description", .str "d1")]])],
              .map [("name", .str "A"), ("column", .int 2), ("items", .seq [])]])],
          .int 2,
          .seq [
            .map [("name", .str "B"), ("column", .int 1),
              ("items", .seq [.map [("command", .str "c1"), ("description", .str "d1")]])],
            .map [("name", .str "A"), ("column", .int 2), ("items", .seq [])]]⟩ :=
  claim_c1_save_load_roundtrip
    ⟨"w".toList,
      .map [("title", .str "W"), ("columns", .int 2),
        ("categories", .seq [
          .map [("name", .str "B"), ("column", .int 1),
            ("items", .seq [.map [("command", .str "c1"), ("description", .str "d1")]])],
          .map [("name", .str "A"), ("column", .int 2), ("items", .seq [])]])],
      .int 2,
      .seq [
        .map [("name", .str "B"), ("column", .int 1),
          ("items", .seq [.map [("command", .str "c1"), ("description", .str "d1")]])],
        .map [("name", .str "A"), ("column", .int 2), ("items", .seq [])]]⟩
    ⟨false, []⟩ ("t0".toList) (by decide) rfl rfl

/-- Claim C8: loading an existing file whose parse result is empty/null
(`yaml.safe_load` returns `None`) does not fail with `ParseError`; the data
is treated as the empty mapping and schema validation runs on it, failing
with `ValidationFailed` since the empty mapping violates the required-field
invariants. -/
theorem claim_c8_load_empty_parse (name : FileName) (fs : FS)
    (h : fs.lookup (yamlFileName name) = some (.yamlData .null)) :
    load name fs = .error (.validationError (validate_data (Yaml.map []))) ∧
      validate_data (Yaml.map []) ≠ [] ∧
      load name fs ≠ .error .yamlError := by
  have h1 : load name fs = .error (.validationError (validate_data (Yaml.map []))) := by
    unfold load
    rw [h]
    show (if validate_data (Yaml.map []) = [] then
        Except.ok (⟨name, Yaml.map [], yamlGet (Yaml.map []) "columns" (Yaml.int 1),
          yamlGet (Yaml.map []) "categories" (Yaml.seq [])⟩ : CheatSheet)
      else Except.error (LoadErr.validationError (validate_data (Yaml.map [])))) = _
    rw [if_neg (by decide)]
  refine ⟨h1, by decide, ?_⟩
  rw [h1]
  intro hc
  injection hc with hc2
  exact LoadErr.noConfusion hc2

/-- Witness for C8 on a one-file directory holding a null document. -/
theorem claim_c8_witness :
    load ("doc".toList) ⟨true, [(yamlFileName ("doc".toList), .yamlData .null)]⟩ =
        .error (.validationError (validate_data (Yaml.map []))) ∧
      validate_data (Yaml.map []) ≠ [] ∧
      load ("doc".toList) ⟨true, [(yamlFileName ("doc".toList), .yamlData .null)]⟩ ≠
        .error .yamlError :=
  claim_c8_load_empty_parse ("doc".toList)
    ⟨true, [(yamlFileName ("doc".toList), .yamlData .null)]⟩ rfl

/-! Error-collection structure of the validator. -/

theorem atField_path (fname : String) (ms : List String) :
    ∀ e ∈ atField fname ms, e.path = [fname] := by
  intro e he
  obtain ⟨m, -, rfl⟩ := List.mem_map.mp he
  rfl

theorem underPath_path (s : String) (es : List VError) :
    ∀ e ∈ underPath s es, ∃ r, e.path = s :: r := by
  intro e he
  obtain ⟨e', -, rfl⟩ := List.mem_map.mp he
  exact ⟨e'.path, rfl⟩

theorem reqListErrs_path (fname : String) (f : Yaml → List VError) (v : Option Yaml) :
    ∀ e ∈ reqListErrs fname f v, ∃ r, e.path = fname :: r := by
  intro e he
  cases v with
  | none => exact ⟨[], atField_path _ _ e he⟩
  | some y =>
    cases y with
    | null => exact ⟨[], atField_path _ _ e he⟩
    | bool b => exact ⟨[], atField_path _ _ e he⟩
    | int n => exact ⟨[], atField_path _ _ e he⟩
    | str s => exact ⟨[], atField_path _ _ e he⟩
    | seq xs => exact underPath_path _ _ e he
    | map m => exact ⟨[], atField_path _ _ e he⟩

theorem indexedErrs_mem (f : Yaml → List VError) :
    ∀ (xs : List Yaml) (j i : Nat) (x : Yaml), xs.get? i = some x →
      ∀ e ∈ f x, (⟨toString (j + i) :: e.path, e.msg⟩ : VError) ∈ indexedErrs f j xs
  | [], _, i, x, hx => by intro e he; simp [List.get?] at hx
  | y :: ys, j, 0, x, hx => by
    intro e he
    have hy : y = x := by
      simp only [List.get?, Option.some.injEq] at hx
      exact hx
    subst hy
    rw [Nat.add_zero]
    exact List.mem_append_left _ (List.mem_map_of_mem _ he)
  | y :: ys, j, i + 1, x, hx => by
    intro e he
    have hx' : ys.get? i = some x := by simpa [List.get?] using hx
    have hrec := indexedErrs_mem f ys (j + 1) i x hx' e he
    have harith : j + 1 + i = j + (i + 1) := by omega
    rw [harith] at hrec
    exact List.mem_append_right _ hrec

/-- Claim C6: schema validation collects the failures of every field before
returning — an invalid `title` never masks `columns` errors, top-level errors
never mask the errors of any category nested at any index — and every
reported failure is keyed by a (nonempty) field path, so callers can render
field-level feedback in one pass. -/
theorem claim_c6_validation_collects_all (kvs : List (String × Yaml)) :
    (∀ m ∈ reqStrErrs 1 200 (kvs.lookup "title"),
        (⟨["title"], m⟩ : VError) ∈ cheatSheetErrs (.map kvs)) ∧
      (∀ m ∈ reqIntErrs 1 6 (kvs.lookup "columns"),
        (⟨["columns"], m⟩ : VError) ∈ cheatSheetErrs (.map kvs)) ∧
      (∀ xs, kvs.lookup "categories" = some (.seq xs) →
        ∀ (i : Nat) (x : Yaml), xs.get? i = some x →
          ∀ e ∈ categoryErrs x,
            (⟨"categories" :: toString i :: e.path, e.msg⟩ : VError) ∈
              cheatSheetErrs (.map kvs)) ∧
      (∀ e ∈ cheatSheetErrs (.map kvs), e.path ≠ []) := by
  refine ⟨?_, ?_, ?_, ?_⟩
  · intro m hm
    show _ ∈ atField "title" (reqStrErrs 1 200 (kvs.lookup "title")) ++
      atField "columns" (reqIntErrs 1 6 (kvs.lookup "columns")) ++
      reqListErrs "categories" categoryErrs (kvs.lookup "categories")
    exact List.mem_append_left _ (List.mem_append_left _ (List.mem_map_of_mem _ hm))
  · intro m hm
    show _ ∈ atField "title" (reqStrErrs 1 200 (kvs.lookup "title")) ++
      atField "columns" (reqIntErrs 1 6 (kvs.lookup "columns")) ++
      reqListErrs "categories" categoryErrs (kvs.lookup "categories")
    exact List.mem_append_left _ (List.mem_append_right _ (List.mem_map_of_mem _ hm))
  · intro xs hxs i x hx e he
    have h0 := indexedErrs_mem categoryErrs xs 0 i x hx e he
    rw [Nat.zero_add] at h0
    show _ ∈ atField "title" (reqStrErrs 1 200 (kvs.lookup "title")) ++
      atField "columns" (reqIntErrs 1 6 (kvs.lookup "columns")) ++
      reqListErrs "categories" categoryErrs (kvs.lookup "categories")
    apply List.mem_append_right
    rw [hxs]
    show _ ∈ underPath "categories" (indexedErrs categoryErrs 0 xs)
    exact List.mem_map_of_mem _ h0
  · intro e he
    have he' : e ∈ atField "title" (reqStrErrs 1 200 (kvs.lookup "title")) ++
        atField "columns" (reqIntErrs 1 6 (kvs.lookup "columns")) ++
        reqListErrs "categories" categoryErrs (kvs.lookup "categories") := he
    rcases List.mem_append.mp he' with hAB | hC
    · rcases List.mem_append.mp hAB with hA | hB
      · rw [atField_path _ _ e hA]
        simp
      · rw [atField_path _ _ e hB]
        simp
    · obtain ⟨r, hr⟩ := reqListErrs_path _ _ _ e hC
      rw [hr]
      simp

/-- Witness for C6 at a document with an invalid `title` and, nested inside
the first category, a missing `name`: both failures are reported, each keyed
by its field path. -/
theorem claim_c6_witness :
    (⟨["title"], "Not a valid string."⟩ : VError) ∈
        cheatSheetErrs (.map [("title", .int 3), ("categories", .seq [.map []])]) ∧
      (⟨["categories", "0", "name"], "Missing data for required field."⟩ : VError) ∈
        cheatSheetErrs (.map [("title", .int 3), ("categories", .seq [.map []])]) :=
  ⟨(claim_c6_validation_collects_all [("title", .int 3), ("categories", .seq [.map []])]).1
      "Not a valid string." (by decide),
    (claim_c6_validation_collects_all [("title", .int 3), ("categories", .seq [.map []])]).2.2.1
      [.map []] rfl 0 (.map []) rfl
      ⟨["name"], "Missing data for required field."⟩ (by decide)⟩

/-! Listing: extension stripping and the hidden-file filter. -/

theorem rfindDot_append_some :
    ∀ (a b : PyStr) (i : Nat), rfindDot b = some i →
      rfindDot (a ++ b) = some (a.length + i)
  | [], b, i, h => by simpa using h
  | c :: t, b, i, h => by
    have ih := rfindDot_append_some t b i h
    show rfindDot (c :: (t ++ b)) = some ((c :: t).length + i)
    simp only [rfindDot, ih, List.length_cons, Option.some.injEq]
    omega

theorem splitextStem_cons_ext (c : Char) (t : PyStr) (hc : (c == '.') = false) :
    splitextStem ((c :: t) ++ extYaml) = c :: t := by
  have h1 : rfindDot ((c :: t) ++ extYaml) = some ((c :: t).length + 0) :=
    rfindDot_append_some (c :: t) extYaml 0 (by decide)
  rw [Nat.add_zero] at h1
  unfold splitextStem
  rw [h1]
  show (if ((List.take (c :: t).length ((c :: t) ++ extYaml)).all fun d => d == '.') = true
      then (c :: t) ++ extYaml else List.take (c :: t).length ((c :: t) ++ extYaml)) = c :: t
  rw [List.take_left]
  rw [show ((c :: t).all fun d => d == '.') = false from by simp [List.all_cons, hc]]
  simp

theorem keepsFile_elim (f : FileName) (h : keepsFile f = true) :
    ∃ c t, f = (c :: t) ++ extYaml ∧ (c == '.') = false := by
  rw [keepsFile, Bool.and_eq_true] at h
  obtain ⟨hend, hdot'⟩ := h
  have hdot : startsWithDot f = false := by
    revert hdot'
    cases startsWithDot f <;> simp
  have hsuffix : extYaml <:+ f := List.isSuffixOf_iff_suffix.mp hend
  obtain ⟨x, hx⟩ := hsuffix
  cases x with
  | nil =>
    exfalso
    rw [← hx] at hdot
    exact absurd hdot (by decide)
  | cons c t =>
    refine ⟨c, t, hx.symm, ?_⟩
    rw [← hx] at hdot
    simpa [startsWithDot] using hdot

theorem stem_not_hidden (f : FileName) (h : keepsFile f = true) :
    startsWithDot (splitextStem f) = false := by
  obtain ⟨c, t, rfl, hc⟩ := keepsFile_elim f h
  rw [splitextStem_cons_ext c t hc]
  simpa [startsWithDot] using hc

theorem mem_list_all (l : List (FileName × FileContent)) (x : FileName) :
    x ∈ list_all ⟨true, l⟩ ↔
      ∃ f ∈ l.map Prod.fst, keepsFile f = true ∧ x = splitextStem f := by
  show x ∈ List.insertionSort (· ≤ ·) (((l.map Prod.fst).filter keepsFile).map splitextStem) ↔ _
  rw [(List.perm_insertionSort (· ≤ ·) _).mem_iff]
  constructor
  · intro hx
    obtain ⟨f, hf, rfl⟩ := List.mem_map.mp hx
    obtain ⟨hfm, hkeep⟩ := List.mem_filter.mp hf
    exact ⟨f, hfm, hkeep, rfl⟩
  · rintro ⟨f, hfm, hkeep, rfl⟩
    exact List.mem_map_of_mem _ (List.mem_filter.mpr ⟨hfm, hkeep⟩)

/-- Claim C7: `list_all` on a nonexistent directory returns `[]` rather than
failing; on an existing directory its result is sorted lexicographically
ascending and holds exactly the stems of the files that carry the `.yaml`
extension and are not hidden (no name starting with `.`); stripping the
extension is faithful — appending `.yaml` to a listed stem recovers the file
name. -/
theorem claim_c7_list_all_spec :
    (∀ l, list_all ⟨false, l⟩ = []) ∧
      (∀ fs, List.Sorted (· ≤ ·) (list_all fs)) ∧
      (∀ l x, x ∈ list_all ⟨true, l⟩ ↔
        ∃ f ∈ l.map Prod.fst, keepsFile f = true ∧ x = splitextStem f) ∧
      (∀ f, keepsFile f = true → splitextStem f ++ extYaml = f) := by
  refine ⟨fun l => rfl, ?_, mem_list_all, ?_⟩
  · intro fs
    unfold list_all
    split
    · exact List.sorted_insertionSort _ _
    · exact List.sorted_nil
  · intro f h
    obtain ⟨c, t, rfl, hc⟩ := keepsFile_elim f h
    rw [splitextStem_cons_ext c t hc]

/-- Witness for C7: with documents `b`, `a`, a hidden file and a non-YAML
file present, listing returns exactly `["a", "b"]`; and stripping the
extension of a kept name is inverted by appending it. -/
theorem claim_c7_witness :
    list_all ⟨true, [("b.yaml".toList, FileContent.yamlData .null),
        ("a.yaml".toList, FileContent.yamlData .null),
        (".hidden.yaml".toList, FileContent.malformed),
        ("notes.txt".toList, FileContent.malformed)]⟩ =
      ["a".toList, "b".toList] ∧
      splitextStem ("b.yaml".toList) ++ extYaml = "b.yaml".toList :=
  ⟨by decide, claim_c7_list_all_spec.2.2.2 ("b.yaml".toList) (by decide)⟩

/-- Claim C10: an in-progress save is never observable through `list_all`:
the temporary file name starts with `.` and ends in `.yaml.tmp`, and no
result of `list_all` — in any directory state, hence at any point of any
interleaving of a save with a listing — ever equals a temporary file name
(listed stems never start with a dot, temporary names always do). -/
theorem claim_c10_temp_files_never_listed (n rand : PyStr) :
    startsWithDot (tempFileName n rand) = true ∧
      (∃ mid, tempFileName n rand = mid ++ ".yaml.tmp".toList) ∧
      ∀ (fs : FS) (x : FileName), x ∈ list_all fs → x ≠ tempFileName n rand := by
  refine ⟨rfl, ⟨'.' :: (n ++ '_' :: rand), ?_⟩, ?_⟩
  · simp [tempFileName, List.append_assoc]
  · intro fs x hx
    obtain ⟨de, files⟩ := fs
    cases de
    · exact absurd hx (List.not_mem_nil x)
    · rw [mem_list_all] at hx
      obtain ⟨f, hf, hkeep, rfl⟩ := hx
      intro hEq
      have h1 : startsWithDot (splitextStem f) = false := stem_not_hidden f hkeep
      rw [hEq] at h1
      exact Bool.noConfusion (show (true : Bool) = false from h1)

/-- Witness for C10: in a directory holding a finished document and a live
temporary file, the listing contains the document's stem, which the theorem
separates from the temporary name. -/
theorem claim_c10_witness :
    ("a".toList ∈ list_all ⟨true, [("a.yaml".toList, FileContent.yamlData .null),
        (tempFileName ("a".toList) ("r1".toList), FileContent.yamlData .null)]⟩) ∧
      "a".toList ≠ tempFileName ("a".toList) ("r1".toList) :=
  ⟨by decide,
    (claim_c10_temp_files_never_listed ("a".toList) ("r1".toList)).2.2
      ⟨true, [("a.yaml".toList, FileContent.yamlData .null),
        (tempFileName ("a".toList) ("r1".toList), FileContent.yamlData .null)]⟩
      ("a".toList) (by decide)⟩

end Cheatsheeter
